import Mathlib

/-!
Verification of the update-check-and-install flow of `src/main.js`
(the `BaleApp` Electron shell), together with the permission handler and
the external-link handler.

The stateful Electron code is shallowly embedded as pure functions from an
environment of external outcomes (manifest fetch result, the user's dialog
choice, the download result, the `exec` callback result) to a list of
observable effects, in program order.  `semver.gt` of the node `semver`
package is embedded as `semverGt` below: strict parsing per the package's
FULL regular expression (optional leading `v`, numeric
major/minor/patch without leading zeros, dot-separated prerelease
identifiers, optional build metadata), comparison by major, minor, patch,
then prerelease identifiers; an invalid version makes `semver.gt` throw,
modelled as `none`.
-/

/-- Split a character list at every occurrence of `c` (like `"a.b".split "."`:
`n` separators give `n+1` pieces, empty pieces included). -/
def splitOnChar (c : Char) : List Char → List (List Char)
  | [] => [[]]
  | x :: xs =>
    let r := splitOnChar c xs
    if x = c then [] :: r
    else
      match r with
      | [] => [[x]]
      | y :: ys => (x :: y) :: ys

/-- Break a character list at the first occurrence of `c`: the part before it
and, when `c` occurs, the part after it. -/
def breakAtFirst (c : Char) : List Char → List Char × Option (List Char)
  | [] => ([], none)
  | x :: xs =>
    if x = c then ([], some xs)
    else
      let r := breakAtFirst c xs
      (x :: r.1, r.2)

/-- Trim ASCII/Unicode whitespace from both ends, as `String.prototype.trim`
does before the semver regular expression is applied. -/
def trimChars (l : List Char) : List Char :=
  ((l.dropWhile Char.isWhitespace).reverse.dropWhile Char.isWhitespace).reverse

/-- The numeric value of a digit list, most significant first. -/
def digitsToNat (l : List Char) : Nat :=
  l.foldl (fun a c => a * 10 + (c.toNat - 48)) 0

/-- `Number.MAX_SAFE_INTEGER`, the bound node-semver places on numeric
version components. -/
def maxSafeInteger : Nat := 9007199254740991

/-- A main version component: digits only, no leading zero
(`0|[1-9]\d*`), and at most `Number.MAX_SAFE_INTEGER`. -/
def parseMainNum (l : List Char) : Option Nat :=
  if l.isEmpty then none
  else if !l.all Char.isDigit then none
  else if l.head? = some '0' && l.length != 1 then none
  else if digitsToNat l > maxSafeInteger then none
  else some (digitsToNat l)

/-- A character allowed in a prerelease or build identifier:
`[0-9A-Za-z-]`. -/
def isIdentChar (c : Char) : Bool :=
  c.isAlphanum || c = '-'

/-- A prerelease identifier as node-semver stores it: a number when it is
numeric and below `Number.MAX_SAFE_INTEGER`, otherwise the raw characters. -/
inductive PreId where
  | num (n : Nat)
  | str (s : List Char)
deriving DecidableEq

/-- Parse one prerelease identifier per the strict semver grammar
(`0|[1-9]\d*|\d*[a-zA-Z-][a-zA-Z0-9-]*`): digit-only identifiers must have
no leading zero and become numeric when below `Number.MAX_SAFE_INTEGER`. -/
def parsePreId (l : List Char) : Option PreId :=
  if l.isEmpty then none
  else if l.all Char.isDigit then
    if l.head? = some '0' && l.length != 1 then none
    else if digitsToNat l < maxSafeInteger then some (PreId.num (digitsToNat l))
    else some (PreId.str l)
  else if l.all isIdentChar then some (PreId.str l)
  else none

/-- A build-metadata identifier: nonempty, characters `[0-9A-Za-z-]`. -/
def validBuildId (l : List Char) : Bool :=
  !l.isEmpty && l.all isIdentChar

/-- A parsed semantic version (build metadata is validated but discarded,
as node-semver ignores it in comparisons). -/
structure SemVer where
  major : Nat
  minor : Nat
  patch : Nat
  pre : List PreId
deriving DecidableEq

/-- Parse a version string (as a character list) per node-semver's strict
FULL regular expression: length cap 256, trim, optional leading `v`,
`major.minor.patch`, optional `-prerelease`, optional `+build`. -/
def parseSemVerChars (l0 : List Char) : Option SemVer :=
  if l0.length > 256 then none
  else
    let l1 := trimChars l0
    let l :=
      match l1 with
      | 'v' :: rest => rest
      | _ => l1
    let cb := breakAtFirst '+' l
    let mp := breakAtFirst '-' cb.1
    match splitOnChar '.' mp.1 with
    | [ma, mi, pa] => do
      let major ← parseMainNum ma
      let minor ← parseMainNum mi
      let patch ← parseMainNum pa
      let pre ←
        match mp.2 with
        | none => some []
        | some p => (splitOnChar '.' p).mapM parsePreId
      match cb.2 with
      | none => some ⟨major, minor, patch, pre⟩
      | some b =>
        if (splitOnChar '.' b).all validBuildId then some ⟨major, minor, patch, pre⟩
        else none
    | _ => none

/-- Parse a semantic version string; `none` models the `TypeError` node-semver
throws on an invalid version. -/
def parseSemVer (s : String) : Option SemVer :=
  parseSemVerChars s.data

/-- Lexicographic comparison of character lists by code point, as JavaScript
compares the (ASCII) identifier strings. -/
def cmpChars : List Char → List Char → Ordering
  | [], [] => Ordering.eq
  | [], _ :: _ => Ordering.lt
  | _ :: _, [] => Ordering.gt
  | a :: as, b :: bs =>
    if a < b then Ordering.lt
    else if b < a then Ordering.gt
    else cmpChars as bs

/-- node-semver's `compareIdentifiers`: numeric identifiers compare
numerically and sort before alphanumeric ones. -/
def compareIdentifiers : PreId → PreId → Ordering
  | PreId.num x, PreId.num y => compare x y
  | PreId.num _, PreId.str _ => Ordering.lt
  | PreId.str _, PreId.num _ => Ordering.gt
  | PreId.str x, PreId.str y => cmpChars x y

/-- Pairwise comparison of two nonempty prerelease identifier lists; a list
that runs out first is smaller. -/
def comparePreIds : List PreId → List PreId → Ordering
  | [], [] => Ordering.eq
  | [], _ :: _ => Ordering.lt
  | _ :: _, [] => Ordering.gt
  | a :: as, b :: bs =>
    match compareIdentifiers a b with
    | Ordering.eq => comparePreIds as bs
    | o => o

/-- node-semver's `comparePre`: a release sorts after any prerelease of the
same main version; two prereleases compare identifier by identifier. -/
def comparePre : List PreId → List PreId → Ordering
  | [], [] => Ordering.eq
  | [], _ :: _ => Ordering.gt
  | _ :: _, [] => Ordering.lt
  | a :: as, b :: bs => comparePreIds (a :: as) (b :: bs)

/-- node-semver's `compare`: major, then minor, then patch, then
prerelease. -/
def SemVer.compareVersions (a b : SemVer) : Ordering :=
  match compare a.major b.major with
  | Ordering.eq =>
    match compare a.minor b.minor with
    | Ordering.eq =>
      match compare a.patch b.patch with
      | Ordering.eq => comparePre a.pre b.pre
      | o => o
    | o => o
  | o => o

/-- `semver.gt a b`: `some true`/`some false` when both versions parse,
`none` when either is invalid (the library throws, caught by the caller's
`try`). -/
def semverGt (a b : String) : Option Bool :=
  match parseSemVer a, parseSemVer b with
  | some x, some y => some (x.compareVersions y == Ordering.gt)
  | _, _ => none

/-- A parsed JSON body, restricted to the string-valued fields the update
check reads: an association list from field name to value.  A missing key
models the field being `undefined`. -/
abbrev Json := List (String × String)

/-- JavaScript property access `j.key`: the first binding of `key`, or
`none` for `undefined`. -/
def Json.get (j : Json) (key : String) : Option String :=
  (List.find? (fun p => p.1 == key) j).map Prod.snd

/-- The informational/error message boxes `downloadAndInstallUpdate` shows
(distinct from the yes/no consent prompt). -/
inductive Notice where
  | downloading
  | completed
  | downloadFailed
deriving DecidableEq

/-- An observable effect of the update flow, in program order:
`console.error`, `console.log`, the consent dialog (carrying the manifest
version the message interpolates), an informational/error message box,
invoking `download` of electron-dl with a URL, running a command through
`exec`, and `app.exit` with its exit code. -/
inductive Effect where
  | logError (msg : String)
  | logInfo (msg : String)
  | prompt (latestVersion : String)
  | notice (n : Notice)
  | downloadStart (url : Option String)
  | execCmd (cmd : String)
  | appExit (code : Nat)
deriving DecidableEq

/-- The outcome of `fetch` + `response.json()`: network rejection, a body
that is not parseable JSON string data, or a parsed body. -/
inductive FetchOutcome where
  | netError
  | parseError
  | body (j : Json)
deriving DecidableEq

/-- The external world of one update cycle: the manifest fetch outcome, the
running version `app.getVersion()` reports, the index of the dialog button
the user clicks (0 is the yes button), the result of the electron-dl
download (save path on success), and whether the `exec` callback receives
an error. -/
structure Env where
  fetch : FetchOutcome
  currentVersion : String
  userResponse : Nat
  downloadResult : Except String String
  execError : Bool

/-- The Windows shell command `exec` receives for a downloaded file:
`start "" "<filePath>"`. -/
def startCommand (filePath : String) : String :=
  "start \"\" \"" ++ filePath ++ "\""

/-- `downloadAndInstallUpdate(downloadLink)` of `src/main.js` lines
202-236: show the downloading notice, invoke `download`; on success show
the completed notice, `exec` the file and, when the callback reports no
error, call `app.exit()` (exit code 0) and log; on a rejected download,
log the error and show the error notice. -/
def downloadAndInstallUpdate (env : Env) (downloadLink : Option String) :
    List Effect :=
  Effect.notice Notice.downloading ::
  Effect.downloadStart downloadLink ::
  match env.downloadResult with
  | Except.ok savePath =>
    Effect.notice Notice.completed ::
    Effect.execCmd (startCommand savePath) ::
    if env.execError then [Effect.logError "Error launching installer:"]
    else [Effect.appExit 0, Effect.logInfo "Installer started:"]
  | Except.error e =>
    [Effect.logError ("Error downloading update: " ++ e),
     Effect.notice Notice.downloadFailed]

/-- `checkForUpdates()` of `src/main.js` lines 175-200: fetch the manifest,
read `latestData.version`, compare with `semver.gt` against the current
version; when strictly greater, read `latestData.latest` as the download
link and show the consent dialog, proceeding to `downloadAndInstallUpdate`
only on button 0; any thrown error (fetch rejection, JSON parse failure,
invalid version) is caught and logged. -/
def checkForUpdates (env : Env) : List Effect :=
  match env.fetch with
  | FetchOutcome.netError => [Effect.logError "Error checking for updates:"]
  | FetchOutcome.parseError => [Effect.logError "Error checking for updates:"]
  | FetchOutcome.body j =>
    match j.get "version" with
    | none => [Effect.logError "Error checking for updates:"]
    | some latestVersion =>
      match semverGt latestVersion env.currentVersion with
      | none => [Effect.logError "Error checking for updates:"]
      | some false => []
      | some true =>
        Effect.prompt latestVersion ::
        if env.userResponse = 0 then
          downloadAndInstallUpdate env (j.get "latest")
        else []

/-- `setupPermissions` of `src/main.js` lines 84-92: the permission request
handler's callback argument — `true` exactly for `notifications`. -/
def permissionRequestHandler (permission : String) : Bool :=
  if permission = "notifications" then true else false

/-- A window-open request's details, reduced to the field the handler
reads. -/
structure WindowOpenDetails where
  url : String

/-- The action a window-open handler returns to Electron. -/
inductive WindowOpenAction where
  | allow
  | deny
deriving DecidableEq

/-- `handleExternalLinks` of `src/main.js` lines 53-56: pass the requested
URL to `shell.openExternal` and return `action: deny`.  The result pairs
the returned action with the list of URLs handed to the system browser. -/
def handleExternalLinks (details : WindowOpenDetails) :
    WindowOpenAction × List String :=
  (WindowOpenAction.deny, [details.url])

/-- Count of consent prompts in a trace. -/
def countPrompts (t : List Effect) : Nat :=
  (t.filter fun e =>
    match e with
    | Effect.prompt _ => true
    | _ => false).length

/-- The URLs passed to the Download Service, in order. -/
def downloadUrls (t : List Effect) : List (Option String) :=
  t.filterMap fun e =>
    match e with
    | Effect.downloadStart u => some u
    | _ => none

/-- The commands passed to `exec`, in order. -/
def execCmds (t : List Effect) : List String :=
  t.filterMap fun e =>
    match e with
    | Effect.execCmd c => some c
    | _ => none

/-- Whether the trace exits the process. -/
def hasAppExit (t : List Effect) : Bool :=
  t.any fun e =>
    match e with
    | Effect.appExit _ => true
    | _ => false

/-- Count of informational/error message boxes in a trace. -/
def countNotices (t : List Effect) : Nat :=
  (t.filter fun e =>
    match e with
    | Effect.notice _ => true
    | _ => false).length

/-- The installer URL as named by the specification: the spec's
VersionManifest carries the download link in a field called
`latestDownloadUrl`.  This definition follows the spec's words, to be
compared with the field `checkForUpdates` actually reads. -/
def specInstallerUrl (j : Json) : Option String :=
  j.get "latestDownloadUrl"

/-- Concrete newer-version manifest used by the witnesses. -/
def manifestNewer : Json :=
  [("version", "1.3.0"), ("latest", "https://example/app-1.3.0.exe")]

/-- A cycle where the manifest is newer, the user accepts, the download
succeeds and the launch succeeds. -/
def envAcceptOk : Env :=
  { fetch := FetchOutcome.body manifestNewer
    currentVersion := "1.2.0"
    userResponse := 0
    downloadResult := Except.ok "C:/dl/app-1.3.0.exe"
    execError := false }

/-- As `envAcceptOk`, but the user clicks the no button. -/
def envDeclined : Env := { envAcceptOk with userResponse := 1 }

/-- As `envAcceptOk`, but the manifest fetch rejects. -/
def envNetError : Env := { envAcceptOk with fetch := FetchOutcome.netError }

/-- As `envAcceptOk`, but the manifest version does not parse. -/
def envBadVersion : Env :=
  { envAcceptOk with fetch := FetchOutcome.body [("version", "abc"), ("latest", "u")] }

/-- As `envAcceptOk`, but the download rejects. -/
def envDownloadFail : Env :=
  { envAcceptOk with downloadResult := Except.error "ECONNRESET" }

/-- As `envAcceptOk`, but `exec` reports an error. -/
def envExecFail : Env := { envAcceptOk with execError := true }

/-- `downloadAndInstallUpdate` never shows a consent prompt, whatever the
download and launch outcomes. -/
theorem countPrompts_downloadAndInstallUpdate (env : Env) (l : Option String) :
    countPrompts (downloadAndInstallUpdate env l) = 0 := by
  unfold downloadAndInstallUpdate countPrompts
  cases env.downloadResult with
  | ok p => cases env.execError <;> simp [List.filter]
  | error e => simp [List.filter]

/-- C1: in a cycle whose manifest fetch yields a body with a valid semantic
`version`, and whose current version is valid, a consent prompt is shown —
exactly once — iff `semver.gt` holds of the manifest version over the
current one; when the manifest version is not strictly greater the cycle
produces no effects at all. -/
theorem checkForUpdates_prompt_iff_newer (env : Env) (j : Json) (v : String)
    (hf : env.fetch = FetchOutcome.body j) (hv : j.get "version" = some v)
    (hval : (parseSemVer v).isSome = true)
    (hcur : (parseSemVer env.currentVersion).isSome = true) :
    (countPrompts (checkForUpdates env) = 1 ↔
      semverGt v env.currentVersion = some true) ∧
    (semverGt v env.currentVersion = some false → checkForUpdates env = []) := by
  obtain ⟨x, hx⟩ := Option.isSome_iff_exists.mp hval
  obtain ⟨y, hy⟩ := Option.isSome_iff_exists.mp hcur
  have hgt : semverGt v env.currentVersion =
      some (x.compareVersions y == Ordering.gt) := by
    simp [semverGt, hx, hy]
  cases hb : x.compareVersions y == Ordering.gt with
  | true =>
    constructor
    · constructor
      · intro _
        rw [hgt, hb]
      · intro _
        simp only [checkForUpdates, hf, hv, hgt, hb, countPrompts, List.filter]
        by_cases hr : env.userResponse = 0
        · rw [if_pos hr]
          have h0 := countPrompts_downloadAndInstallUpdate env (j.get "latest")
          unfold countPrompts at h0
          simp [h0]
        · rw [if_neg hr]
          simp
    · intro hfalse
      rw [hgt, hb] at hfalse
      exact absurd (Option.some.inj hfalse) (by simp)
  | false =>
    have hempty : checkForUpdates env = [] := by
      simp only [checkForUpdates, hf, hv, hgt, hb]
    constructor
    · rw [hgt, hb, hempty]
      simp [countPrompts]
    · intro _
      exact hempty

/-- C1 witness: `envAcceptOk` instantiates the hypotheses of
`checkForUpdates_prompt_iff_newer` at current version `1.2.0` and manifest
version `1.3.0`. -/
theorem checkForUpdates_prompt_iff_newer_witness :
    (countPrompts (checkForUpdates envAcceptOk) = 1 ↔
      semverGt "1.3.0" envAcceptOk.currentVersion = some true) ∧
    (semverGt "1.3.0" envAcceptOk.currentVersion = some false →
      checkForUpdates envAcceptOk = []) :=
  checkForUpdates_prompt_iff_newer envAcceptOk manifestNewer "1.3.0"
    rfl rfl (by decide) (by decide)

/-- Manifest carrying both a `latest` field and a differently valued
`latestDownloadUrl` field. -/
def manifestTwoLinks : Json :=
  [("version", "1.3.0"), ("latest", "https://cdn/a.exe"),
   ("latestDownloadUrl", "https://cdn/b.exe")]

/-- Accepted cycle over `manifestTwoLinks`. -/
def envTwoLinks : Env :=
  { fetch := FetchOutcome.body manifestTwoLinks
    currentVersion := "1.2.0"
    userResponse := 0
    downloadResult := Except.ok "C:/dl/a.exe"
    execError := false }

/-- C2 counterexample: the code passes the manifest's `latest` field to the
download step, not the `latestDownloadUrl` field the claim names — on a
manifest where the two differ, the invoked URL is `latest`'s value. -/
theorem checkForUpdates_ignores_latestDownloadUrl :
    specInstallerUrl manifestTwoLinks = some "https://cdn/b.exe" ∧
    downloadUrls (checkForUpdates envTwoLinks) = [some "https://cdn/a.exe"] ∧
    downloadUrls (checkForUpdates envTwoLinks) ≠
      [specInstallerUrl manifestTwoLinks] := by
  refine ⟨rfl, by decide, by decide⟩

/-- C2 (amended): when the manifest version is strictly greater and the
user accepts, the download step is invoked exactly once, with the value of
the manifest's `latest` field as the installer URL. -/
theorem checkForUpdates_downloads_latest_field (env : Env) (j : Json)
    (v : String) (hf : env.fetch = FetchOutcome.body j)
    (hv : j.get "version" = some v)
    (hgt : semverGt v env.currentVersion = some true)
    (hacc : env.userResponse = 0) :
    downloadUrls (checkForUpdates env) = [j.get "latest"] := by
  simp only [checkForUpdates, hf, hv, hgt, hacc, if_pos]
  unfold downloadAndInstallUpdate downloadUrls
  cases env.downloadResult with
  | ok p => cases env.execError <;> simp [List.filterMap]
  | error e => simp [List.filterMap]

/-- C2 witness: the amended claim at `envAcceptOk`. -/
theorem checkForUpdates_downloads_latest_field_witness :
    downloadUrls (checkForUpdates envAcceptOk) = [manifestNewer.get "latest"] :=
  checkForUpdates_downloads_latest_field envAcceptOk manifestNewer "1.3.0"
    rfl rfl (by decide) rfl

/-- C3: when the manifest fetch rejects or its body is not parseable, the
cycle is exactly one error log: no prompt, no notice, no download, no
process exit. -/
theorem checkForUpdates_fetch_failure_silent (env : Env)
    (h : env.fetch = FetchOutcome.netError ∨ env.fetch = FetchOutcome.parseError) :
    checkForUpdates env = [Effect.logError "Error checking for updates:"] ∧
    countPrompts (checkForUpdates env) = 0 ∧
    countNotices (checkForUpdates env) = 0 ∧
    downloadUrls (checkForUpdates env) = [] ∧
    hasAppExit (checkForUpdates env) = false := by
  rcases h with h | h <;>
    simp [checkForUpdates, h, countPrompts, countNotices, downloadUrls,
      hasAppExit, List.filter, List.filterMap]

/-- C3 witness: the fetch-failure claim at `envNetError`. -/
theorem checkForUpdates_fetch_failure_silent_witness :
    checkForUpdates envNetError = [Effect.logError "Error checking for updates:"] ∧
    countPrompts (checkForUpdates envNetError) = 0 ∧
    countNotices (checkForUpdates envNetError) = 0 ∧
    downloadUrls (checkForUpdates envNetError) = [] ∧
    hasAppExit (checkForUpdates envNetError) = false :=
  checkForUpdates_fetch_failure_silent envNetError (Or.inl rfl)

/-- C4: when the download rejects, an error notice is shown, `exec` is
never invoked, and the process does not exit. -/
theorem downloadAndInstallUpdate_download_failure (env : Env)
    (link : Option String) (e : String)
    (hd : env.downloadResult = Except.error e) :
    Effect.notice Notice.downloadFailed ∈ downloadAndInstallUpdate env link ∧
    execCmds (downloadAndInstallUpdate env link) = [] ∧
    hasAppExit (downloadAndInstallUpdate env link) = false := by
  simp [downloadAndInstallUpdate, hd, execCmds, hasAppExit, List.filterMap]

/-- C4 witness: the download-failure claim at `envDownloadFail`. -/
theorem downloadAndInstallUpdate_download_failure_witness :
    Effect.notice Notice.downloadFailed ∈
      downloadAndInstallUpdate envDownloadFail (some "https://example/app-1.3.0.exe") ∧
    execCmds (downloadAndInstallUpdate envDownloadFail
      (some "https://example/app-1.3.0.exe")) = [] ∧
    hasAppExit (downloadAndInstallUpdate envDownloadFail
      (some "https://example/app-1.3.0.exe")) = false :=
  downloadAndInstallUpdate_download_failure envDownloadFail
    (some "https://example/app-1.3.0.exe") "ECONNRESET" rfl

/-- C5: on the download-succeeded path, `app.exit` (with the normal exit
code 0) is called iff the `exec` callback reports no error; on a launch
error, the failure is logged and the process keeps running. -/
theorem downloadAndInstallUpdate_exit_iff_launch_ok (env : Env)
    (link : Option String) (p : String)
    (hd : env.downloadResult = Except.ok p) :
    (Effect.appExit 0 ∈ downloadAndInstallUpdate env link ↔
      env.execError = false) ∧
    (env.execError = true →
      Effect.logError "Error launching installer:" ∈
        downloadAndInstallUpdate env link ∧
      hasAppExit (downloadAndInstallUpdate env link) = false) := by
  cases hb : env.execError <;>
    simp [downloadAndInstallUpdate, hd, hb, hasAppExit]

/-- C5 witness: the exit-iff-launch-ok claim at `envExecFail`, where the
launch errors. -/
theorem downloadAndInstallUpdate_exit_iff_launch_ok_witness :
    (Effect.appExit 0 ∈
        downloadAndInstallUpdate envExecFail (some "https://example/app-1.3.0.exe") ↔
      envExecFail.execError = false) ∧
    (envExecFail.execError = true →
      Effect.logError "Error launching installer:" ∈
        downloadAndInstallUpdate envExecFail (some "https://example/app-1.3.0.exe") ∧
      hasAppExit (downloadAndInstallUpdate envExecFail
        (some "https://example/app-1.3.0.exe")) = false) :=
  downloadAndInstallUpdate_exit_iff_launch_ok envExecFail
    (some "https://example/app-1.3.0.exe") "C:/dl/app-1.3.0.exe" rfl

/-- C6: in an accepted cycle whose download succeeds with save path `p`,
exactly one `exec` call is made, and its command is the shell-start of
exactly `p`. -/
theorem checkForUpdates_single_launch (env : Env) (j : Json) (v : String)
    (p : String) (hf : env.fetch = FetchOutcome.body j)
    (hv : j.get "version" = some v)
    (hgt : semverGt v env.currentVersion = some true)
    (hacc : env.userResponse = 0)
    (hd : env.downloadResult = Except.ok p) :
    execCmds (checkForUpdates env) = [startCommand p] := by
  cases hb : env.execError <;>
    simp [checkForUpdates, hf, hv, hgt, hacc, downloadAndInstallUpdate, hd, hb,
      execCmds, List.filterMap]

/-- C6 witness: the single-launch claim at `envAcceptOk`, whose download
saves to `C:/dl/app-1.3.0.exe`. -/
theorem checkForUpdates_single_launch_witness :
    execCmds (checkForUpdates envAcceptOk) = [startCommand "C:/dl/app-1.3.0.exe"] :=
  checkForUpdates_single_launch envAcceptOk manifestNewer "1.3.0"
    "C:/dl/app-1.3.0.exe" rfl rfl (by decide) rfl rfl

/-- C7: when the manifest's `version` field is absent or does not parse as
a valid semantic version, the check fails: one error log, no prompt, no
download. -/
theorem checkForUpdates_invalid_version_fails (env : Env) (j : Json)
    (hf : env.fetch = FetchOutcome.body j)
    (hv : ((j.get "version").all fun v => (parseSemVer v).isNone) = true) :
    checkForUpdates env = [Effect.logError "Error checking for updates:"] ∧
    countPrompts (checkForUpdates env) = 0 ∧
    downloadUrls (checkForUpdates env) = [] := by
  cases hg : j.get "version" with
  | none =>
    simp [checkForUpdates, hf, hg, countPrompts, downloadUrls, List.filter,
      List.filterMap]
  | some v =>
    rw [hg] at hv
    have hpn : parseSemVer v = none := by
      simpa [Option.all] using hv
    have hsg : semverGt v env.currentVersion = none := by
      simp [semverGt, hpn]
    simp [checkForUpdates, hf, hg, hsg, countPrompts, downloadUrls, List.filter,
      List.filterMap]

/-- C7 witness: the invalid-version claim at `envBadVersion`, whose
manifest version is `abc`. -/
theorem checkForUpdates_invalid_version_fails_witness :
    checkForUpdates envBadVersion = [Effect.logError "Error checking for updates:"] ∧
    countPrompts (checkForUpdates envBadVersion) = 0 ∧
    downloadUrls (checkForUpdates envBadVersion) = [] :=
  checkForUpdates_invalid_version_fails envBadVersion
    [("version", "abc"), ("latest", "u")] rfl (by decide)

/-- C8: when the prompt is shown and the user clicks the no button, the
cycle's whole trace is that single prompt: in particular the download
service is never invoked. -/
theorem checkForUpdates_declined_no_download (env : Env) (j : Json)
    (v : String) (hf : env.fetch = FetchOutcome.body j)
    (hv : j.get "version" = some v)
    (hgt : semverGt v env.currentVersion = some true)
    (hdec : env.userResponse = 1) :
    checkForUpdates env = [Effect.prompt v] ∧
    downloadUrls (checkForUpdates env) = [] := by
  simp [checkForUpdates, hf, hv, hgt, hdec, downloadUrls, List.filterMap]

/-- C8 witness: the declined claim at `envDeclined`. -/
theorem checkForUpdates_declined_no_download_witness :
    checkForUpdates envDeclined = [Effect.prompt "1.3.0"] ∧
    downloadUrls (checkForUpdates envDeclined) = [] :=
  checkForUpdates_declined_no_download envDeclined manifestNewer "1.3.0"
    rfl rfl (by decide) rfl

/-- C9: the permission request handler grants a request iff the requested
permission is `notifications`; every other permission is denied. -/
theorem permissionRequestHandler_notifications_only (p : String) :
    permissionRequestHandler p = true ↔ p = "notifications" := by
  unfold permissionRequestHandler
  split <;> simp_all

/-- C10: the window-open handler always returns the deny action and hands
the requested URL (and nothing else) to the system browser. -/
theorem handleExternalLinks_deny_and_open_external (d : WindowOpenDetails) :
    (handleExternalLinks d).1 = WindowOpenAction.deny ∧
    (handleExternalLinks d).2 = [d.url] :=
  ⟨rfl, rfl⟩
